import Mathlib

/-!
Verification of the goss Go bindings for Faiss (package `faiss`).

This file gives a shallow embedding of the Go sources:

* `src/faiss.go`    — error values, `ValidateVectors`, `ValidateK`
* `src/index.go`    — `faissIndex` and its methods `D`, `IsTrained`, `Ntotal`,
                      `Add`, `AddWithIDs`, `Search`, `SearchBatch`, `AddBatch`,
                      `RemoveIDs`
* `src/index_flat.go` — `IndexFlat.ComputeDistancesBatch`
* `src/selector.go` — ID selectors, `RemoveDuplicateIDs`, `CreateBatchSelector`,
                      `CreateRangeSelector`, `BatchSelectorBuilder`
* `src/index_io.go` — `WriteIndex` (for the persistent wrapper)
* `src/unnamed/part_001` — `PersistentIndex`

Modelling conventions, stated once:

* Go `float32` vector components are modelled as `Int`.  Every claim under
  verification concerns orchestration, ordering, chunking and error routing —
  not floating-point arithmetic — and exact integer arithmetic keeps all
  definitions decidable and executable.
* The Faiss C engine is an external collaborator (spec §1, §6).  Its calls are
  modelled functionally: multi-vector add appends to the stored buffer, and
  multi-query search applies an exact per-query k-nearest-neighbour function
  independently to each query row (squared-L2 metric, ties broken by smaller
  label, missing results padded with label `-1`, as in Faiss).
* Go errors are values built with `errors.New` / `fmt.Errorf` and wrapped with
  `wrapError(err, context)`.  They are modelled by the inductive `GoErr`;
  dynamic `%d`/`%s` arguments of format strings are elided, static context
  strings are kept verbatim since error routing depends only on them.
* Mutation of Go receivers/slices is modelled by explicit state passing: a
  function that mutates its receiver returns the new state.
-/

namespace Goss

/-- Go error values: `errors.New`/`fmt.Errorf` give a message, `wrapError`
wraps an inner error with a context string (`fmt.Errorf("%s: %w", ctx, err)`). -/
inductive GoErr where
  | msg (s : String)
  | wrap (ctx : String) (e : GoErr)
deriving DecidableEq, Repr

/-- Go `wrapError(err, context)` from src/faiss.go (applied only to non-nil
errors, which the `Except` plumbing guarantees at every call site). -/
def wrapError (e : GoErr) (ctx : String) : GoErr := .wrap ctx e

/-- Sentinel `ErrInvalidDimension` from src/faiss.go. -/
def ErrInvalidDimension : GoErr := .msg "invalid dimension"

/-- Sentinel `ErrInvalidK` from src/faiss.go. -/
def ErrInvalidK : GoErr := .msg "invalid k value"

/-- Sentinel `ErrEmptyVectors` from src/faiss.go. -/
def ErrEmptyVectors : GoErr := .msg "empty vectors"

/-- Sentinel `ErrIndexNotTrained` from src/faiss.go. -/
def ErrIndexNotTrained : GoErr := .msg "index not trained"

/-- Sentinel `ErrNullPointer` from src/faiss.go. -/
def ErrNullPointer : GoErr := .msg "null pointer"

/-- Go `ValidateVectors(vectors, d)` from src/faiss.go: empty check, dimension
check, divisibility check, in that order. -/
def ValidateVectors (vectors : List Int) (d : Int) : Except GoErr Unit :=
  if vectors.length = 0 then .error ErrEmptyVectors
  else if d ≤ 0 then .error ErrInvalidDimension
  else if (vectors.length : Int) % d ≠ 0 then
    .error (.msg "vectors length is not divisible by dimension")
  else .ok ()

/-- Go `ValidateK(k)` from src/faiss.go. -/
def ValidateK (k : Int) : Except GoErr Unit :=
  if k ≤ 0 then .error ErrInvalidK else .ok ()

/-- Modelled from the spec: `DefaultSearchBatchSize` is referenced by
`SearchBatch` (src/index.go) and `ComputeDistancesBatch` (src/index_flat.go)
but its defining constant is not among the provided sources; spec §4.1 only
requires that a positive default is substituted when `batchSize ≤ 0`. -/
def DefaultSearchBatchSize : Int := 100

/-- Modelled from the spec: `DefaultAddBatchSize` is referenced by `AddBatch`
(src/index.go) but its defining constant is not among the provided sources;
spec §4.1 only requires that a positive default is substituted when
`batchSize ≤ 0`. -/
def DefaultAddBatchSize : Int := 1000

/-- The Go `faissIndex` struct from src/index.go wrapping a `*C.FaissIndex`.
`isNull` models `idx.idx == nil`; `dim`, `trained` and the flat row-major
vector buffer `data` model the engine-side state behind the handle. -/
structure faissIndex where
  isNull : Bool
  dim : Nat
  trained : Bool
  data : List Int
deriving DecidableEq, Repr

namespace faissIndex

/-- Go `(*faissIndex).D()` from src/index.go: 0 for a nil handle, else the
engine dimension. -/
def D (idx : faissIndex) : Int := if idx.isNull then 0 else (idx.dim : Int)

/-- Go `(*faissIndex).IsTrained()` from src/index.go. -/
def IsTrained (idx : faissIndex) : Bool := if idx.isNull then false else idx.trained

/-- Go `(*faissIndex).Ntotal()` from src/index.go: the engine's count of
stored vectors (rows of width `dim` in the flat buffer). -/
def Ntotal (idx : faissIndex) : Int :=
  if idx.isNull then 0 else ((idx.data.length / idx.dim : Nat) : Int)

end faissIndex

/-- Row `i` of a flat row-major buffer of row width `d`. -/
def nthRow (flat : List Int) (d i : Nat) : List Int := (flat.drop (i * d)).take d

/-- Squared L2 distance between two vectors (exact, on the `Int` model of
`float32` components). -/
def sqDist (q v : List Int) : Int :=
  ((q.zip v).map (fun p => (p.1 - p.2) * (p.1 - p.2))).sum

/-- Engine model: all (distance, label) pairs of one query against the stored
buffer, in storage order. -/
def searchRowPairs (data : List Int) (d : Nat) (q : List Int) : List (Int × Int) :=
  (List.range (data.length / d)).map (fun j => (sqDist q (nthRow data d j), (j : Int)))

/-- Total order used by the engine model to rank (distance, label) pairs:
nearer first, ties broken by smaller label. -/
def pairLE (p q : Int × Int) : Prop := p.1 < q.1 ∨ (p.1 = q.1 ∧ p.2 ≤ q.2)

instance : DecidableRel pairLE := fun p q => by unfold pairLE; infer_instance

/-- Engine model of single-query k-nearest-neighbour search (spec §6): the `k`
nearest stored vectors by squared L2 distance, nearest first, padded with
label `-1` entries when fewer than `k` vectors are stored (Faiss convention).
Both returned lists always have length exactly `k`. -/
def engineSearchRow (data : List Int) (d : Nat) (q : List Int) (k : Nat) :
    List Int × List Int :=
  let sorted := List.insertionSort pairLE (searchRowPairs data d q)
  let top := (sorted ++ List.replicate k ((-1 : Int), (-1 : Int))).take k
  (top.map Prod.fst, top.map Prod.snd)

/-- Engine model of `faiss_Index_search` over `n = x.length / d` query rows
(spec §6): each query row is searched independently and the per-query result
blocks are laid out consecutively in the flat output arrays. -/
def engineSearch (data : List Int) (d : Nat) (x : List Int) (k : Nat) :
    List Int × List Int :=
  let n := x.length / d
  let rows := (List.range n).map (fun i => nthRow x d i)
  ((rows.map (fun q => (engineSearchRow data d q k).1)).flatten,
   (rows.map (fun q => (engineSearchRow data d q k).2)).flatten)

namespace faissIndex

/-- Go `(*faissIndex).Add(x)` from src/index.go: nil check, vector validation,
trained check, then the engine add (which, for the modelled flat engine,
appends the validated buffer to the stored vectors). -/
def Add (idx : faissIndex) (x : List Int) : Except GoErr faissIndex :=
  if idx.isNull then .error ErrNullPointer
  else
    match ValidateVectors x idx.D with
    | .error e => .error (wrapError e "add vectors validation")
    | .ok _ =>
      if ¬ idx.IsTrained then .error (wrapError ErrIndexNotTrained "add operation")
      else .ok { idx with data := idx.data ++ x }

/-- Go `(*faissIndex).AddWithIDs(x, xids)` from src/index.go: nil check,
vector validation, trained check, ID-count check, then the engine add.  The
engine's custom-ID bookkeeping is abstracted away; the stored buffer grows by
the same `n` rows, which is all the claims under verification observe. -/
def AddWithIDs (idx : faissIndex) (x : List Int) (xids : List Int) :
    Except GoErr faissIndex :=
  if idx.isNull then .error ErrNullPointer
  else
    match ValidateVectors x idx.D with
    | .error e => .error (wrapError e "add_with_ids vectors validation")
    | .ok _ =>
      if ¬ idx.IsTrained then .error (wrapError ErrIndexNotTrained "add_with_ids operation")
      else
        if xids.length ≠ x.length / idx.dim then
          .error (wrapError (.msg "number of IDs does not match number of vectors")
            "add_with_ids")
        else .ok { idx with data := idx.data ++ x }

/-- Go `(*faissIndex).Search(x, k)` from src/index.go: nil check, vector
validation, k validation, trained check, then the engine search over
`n = len(x)/d` query rows into flat `n*k` result arrays. -/
def Search (idx : faissIndex) (x : List Int) (k : Int) :
    Except GoErr (List Int × List Int) :=
  if idx.isNull then .error ErrNullPointer
  else
    match ValidateVectors x idx.D with
    | .error e => .error (wrapError e "search vectors validation")
    | .ok _ =>
      match ValidateK k with
      | .error e => .error (wrapError e "search k validation")
      | .ok _ =>
        if ¬ idx.IsTrained then .error (wrapError ErrIndexNotTrained "search operation")
        else .ok (engineSearch idx.data idx.dim x k.toNat)

end faissIndex

/-- One chunk-iteration body of Go `SearchBatch`'s redistribution: slice `j`-th
`k`-wide block out of a flat per-chunk result array
(`batchDistances[j*k : j*k+k]`). -/
def sliceBlock (flat : List Int) (k j : Nat) : List Int := (flat.drop (j * k)).take k

/-- The `for i := 0; i < totalQueries; i += batchSize` loop of Go
`(*faissIndex).SearchBatch` (src/index.go): per chunk `[i, e)` with
`e = min(i+batchSize, totalQueries)`, search the sub-buffer
`queries[i*d : e*d]` with the existing `Search`, slice its flat results into
one `k`-wide block per query, and store them at positions `i..e-1` of the
result lists (the Go code preallocates and assigns each position exactly once,
in increasing order, modelled here as ordered concatenation).  `fuel` bounds
the number of iterations so that the recursion is structural (hence kernel
computable); the caller passes `fuel = total`, which the loop lemma proves
sufficient because the loop is only entered with a positive batch size. -/
def searchBatchLoop (idx : faissIndex) (queries : List Int) (d : Nat) (k : Int)
    (bs total : Nat) : (fuel i : Nat) → Except GoErr (List (List Int) × List (List Int))
  | 0, _ => .ok ([], [])
  | fuel + 1, i =>
    if i < total then
      let e := min (i + bs) total
      let batch := (queries.take (e * d)).drop (i * d)
      match idx.Search batch k with
      | .error err => .error (wrapError err "search batch")
      | .ok (bd, bl) =>
        let dRows := (List.range (e - i)).map (fun j => sliceBlock bd k.toNat j)
        let lRows := (List.range (e - i)).map (fun j => sliceBlock bl k.toNat j)
        match searchBatchLoop idx queries d k bs total fuel (i + bs) with
        | .error err => .error err
        | .ok (restD, restL) => .ok (dRows ++ restD, lRows ++ restL)
    else .ok ([], [])

/-- Go `(*faissIndex).SearchBatch(queries, k, batchSize)` from src/index.go:
nil check, default batch size substitution, query validation, trained check,
the (unreachable, see `SearchBatch` claims) zero-query early return, clamp of
the batch size to the query count, then the chunked search loop. -/
def faissIndex.SearchBatch (idx : faissIndex) (queries : List Int) (k : Int)
    (batchSize : Int) : Except GoErr (List (List Int) × List (List Int)) :=
  if idx.isNull then .error ErrNullPointer
  else
    let bs := if batchSize ≤ 0 then DefaultSearchBatchSize else batchSize
    match ValidateVectors queries idx.D with
    | .error e => .error (wrapError e "search batch queries validation")
    | .ok _ =>
      if ¬ idx.IsTrained then .error (wrapError ErrIndexNotTrained "search batch operation")
      else
        let totalQueries := queries.length / idx.dim
        if totalQueries = 0 then .ok ([], [])
        else
          let bs2 := if bs > (totalQueries : Int) then (totalQueries : Int) else bs
          searchBatchLoop idx queries idx.dim k bs2.toNat totalQueries totalQueries 0

/-- The `for i := 0; i < totalVectors; i += batchSize` loop of Go
`(*faissIndex).AddBatch` (src/index.go): per chunk `[i, e)`, add the
sub-buffer `vectors[i*d : e*d]` with the existing `Add`.  As in
`searchBatchLoop`, `fuel = total` bounds the iterations (the loop lemma
proves it sufficient for the positive batch sizes the caller passes). -/
def addBatchLoop (vectors : List Int) (d bs total : Nat) :
    (fuel : Nat) → (i : Nat) → faissIndex → Except GoErr faissIndex
  | 0, _, idx => .ok idx
  | fuel + 1, i, idx =>
    if i < total then
      let e := min (i + bs) total
      let batch := (vectors.take (e * d)).drop (i * d)
      match idx.Add batch with
      | .error err => .error (wrapError err "add batch")
      | .ok idx' => addBatchLoop vectors d bs total fuel (i + bs) idx'
    else .ok idx

/-- Go `(*faissIndex).AddBatch(vectors, batchSize)` from src/index.go: nil
check, default batch size substitution, validation, trained check, zero-vector
early return, clamp, then the chunked add loop. -/
def faissIndex.AddBatch (idx : faissIndex) (vectors : List Int) (batchSize : Int) :
    Except GoErr faissIndex :=
  if idx.isNull then .error ErrNullPointer
  else
    let bs := if batchSize ≤ 0 then DefaultAddBatchSize else batchSize
    match ValidateVectors vectors idx.D with
    | .error e => .error (wrapError e "add batch vectors validation")
    | .ok _ =>
      if ¬ idx.IsTrained then .error (wrapError ErrIndexNotTrained "add batch operation")
      else
        let totalVectors := vectors.length / idx.dim
        if totalVectors = 0 then .ok idx
        else
          let bs2 := if bs > (totalVectors : Int) then (totalVectors : Int) else bs
          addBatchLoop vectors idx.dim bs2.toNat totalVectors totalVectors 0 idx

/-- The selector variants of src/selector.go, as semantic values: the Go
`IDSelector` wraps an engine-side object fully determined by the constructor
arguments (`faiss_IDSelectorRange_new(imin, imax)` /
`faiss_IDSelectorBatch_new(indices)`). -/
inductive SelectorModel where
  | range (imin imax : Int)
  | batch (ids : List Int)
deriving DecidableEq, Repr

/-- Engine semantics of a selector (spec §3, glossary): the ID predicate it
denotes — `range` matches the half-open interval `[imin, imax)`, `batch`
matches exactly the given IDs. -/
def SelectorModel.matches : SelectorModel → Int → Bool
  | .range imin imax, id => decide (imin ≤ id ∧ id < imax)
  | .batch ids, id => ids.contains id

/-- Go `(*faissIndex).RemoveIDs(sel)` from src/index.go: nil checks, then the
engine removal (spec §6), which drops every stored row whose sequential ID
matches the selector and reports the number removed.  A nil `*IDSelector` or
a deleted one (`sel.sel == nil`) is modelled as `none`. -/
def faissIndex.RemoveIDs (idx : faissIndex) (sel : Option SelectorModel) :
    Except GoErr (Nat × faissIndex) :=
  if idx.isNull then .error ErrNullPointer
  else
    match sel with
    | none => .error (wrapError ErrNullPointer "remove_ids selector")
    | some s =>
      let n := idx.data.length / idx.dim
      let keep := (List.range n).filter (fun j : Nat => ! s.matches (j : Int))
      .ok (n - keep.length, { idx with data := (keep.map (nthRow idx.data idx.dim)).flatten })

/-- Go `NewIDSelectorRange(imin, imax)` from src/selector.go: rejects negative
bounds and `imin >= imax`, then constructs the engine's range selector over
`[imin, imax)` (the engine construction is modelled as succeeding, per its
spec §6 contract). -/
def NewIDSelectorRange (imin imax : Int) : Except GoErr SelectorModel :=
  if imin < 0 ∨ imax < 0 then
    .error (.msg "invalid range (must be non-negative)")
  else if imin ≥ imax then .error (.msg "invalid range: imin >= imax")
  else .ok (.range imin imax)

/-- Go `NewIDSelectorBatch(indices)` from src/selector.go: rejects an empty
slice and any negative ID, then constructs the engine's batch selector over
the given indices. -/
def NewIDSelectorBatch (indices : List Int) : Except GoErr SelectorModel :=
  if indices = [] then .error (.msg "empty indices slice")
  else if indices.any (fun id => id < 0) then
    .error (.msg "invalid ID (must be non-negative)")
  else .ok (.batch indices)

/-- Go `NewIDSelectorAnd(selectors...)` from src/selector.go: empty-argument
check, nil check on every operand (a nil or deleted selector is `none`), then
an unconditional not-implemented error. -/
def NewIDSelectorAnd (selectors : List (Option SelectorModel)) :
    Except GoErr SelectorModel :=
  if selectors = [] then .error (.msg "at least one selector required")
  else if selectors.any (fun s => s.isNone) then .error (.msg "selector at index is nil")
  else .error (.msg "IDSelectorAnd not implemented - requires additional C bindings")

/-- Go `NewIDSelectorOr(selectors...)` from src/selector.go: same shape as
`NewIDSelectorAnd`. -/
def NewIDSelectorOr (selectors : List (Option SelectorModel)) :
    Except GoErr SelectorModel :=
  if selectors = [] then .error (.msg "at least one selector required")
  else if selectors.any (fun s => s.isNone) then .error (.msg "selector at index is nil")
  else .error (.msg "IDSelectorOr not implemented - requires additional C bindings")

/-- Go `NewIDSelectorNot(selector, ntotal)` from src/selector.go: nil check,
positivity check on `ntotal`, then an unconditional not-implemented error. -/
def NewIDSelectorNot (selector : Option SelectorModel) (ntotal : Int) :
    Except GoErr SelectorModel :=
  if selector = none then .error (.msg "selector is nil")
  else if ntotal ≤ 0 then .error (.msg "ntotal must be positive")
  else .error (.msg "IDSelectorNot not implemented - requires additional C bindings")

/-- The element-checking loop of Go `ValidateIDs` (src/selector.go): first
negative ID, or first ID `≥ maxID` when `maxID ≥ 0`, wins. -/
def validateIDsLoop (maxID : Int) : List Int → Except GoErr Unit
  | [] => .ok ()
  | id :: rest =>
    if id < 0 then .error (.msg "negative ID at index")
    else if maxID ≥ 0 ∧ id ≥ maxID then .error (.msg "ID at index >= maxID")
    else validateIDsLoop maxID rest

/-- Go `ValidateIDs(ids, maxID)` from src/selector.go. -/
def ValidateIDs (ids : List Int) (maxID : Int) : Except GoErr Unit :=
  if ids = [] then .error (.msg "empty IDs slice")
  else validateIDsLoop maxID ids

/-- Go `sort.Slice(ids, func(i, j int) bool { return ids[i] < ids[j] })` from
`RemoveDuplicateIDs` (src/selector.go): an in-place ascending sort.  Its
observable contract — an `≤`-sorted permutation of the input — determines the
resulting `Int` sequence uniquely, so any sorting algorithm models it;
`insertionSort` is used because it evaluates by kernel reduction. -/
def sortIds (ids : List Int) : List Int := List.insertionSort (· ≤ ·) ids

/-- The adjacent-duplicate-removal loop of Go `RemoveDuplicateIDs`
(src/selector.go): each element is compared with its predecessor in the
sorted buffer and appended to the result when different. -/
def dedupGo : Int → List Int → List Int
  | _, [] => []
  | prev, y :: ys => if y ≠ prev then y :: dedupGo y ys else dedupGo y ys

/-- Adjacent-duplicate removal over a whole buffer: the first element is
always kept (`result = append(result, ids[0])` in the Go source). -/
def dedupAdjacent : List Int → List Int
  | [] => []
  | x :: xs => x :: dedupGo x xs

/-- Go `RemoveDuplicateIDs(ids)` from src/selector.go, with its side effect on
the caller's slice made explicit: the first component is the state of the
argument slice after the call (sorted in place by `sort.Slice` unless the
input was empty), the second is the returned deduplicated slice. -/
def RemoveDuplicateIDsS (ids : List Int) : List Int × List Int :=
  if ids = [] then (ids, ids)
  else
    let sorted := sortIds ids
    (sorted, dedupAdjacent sorted)

/-- The return value of Go `RemoveDuplicateIDs(ids)` (src/selector.go). -/
def RemoveDuplicateIDs (ids : List Int) : List Int := (RemoveDuplicateIDsS ids).2

/-- Go `CreateBatchSelector(ids, maxID)` from src/selector.go, with the side
effect on the caller's `ids` slice made explicit as in
`RemoveDuplicateIDsS`: emptiness check, duplicate removal, validation of the
cleaned IDs, then batch-selector construction. -/
def CreateBatchSelectorS (ids : List Int) (maxID : Int) :
    List Int × Except GoErr SelectorModel :=
  if ids = [] then (ids, .error (.msg "empty IDs slice"))
  else
    let st := RemoveDuplicateIDsS ids
    match ValidateIDs st.2 maxID with
    | .error e => (st.1, .error (wrapError e "ID validation"))
    | .ok _ => (st.1, NewIDSelectorBatch st.2)

/-- The return value of Go `CreateBatchSelector(ids, maxID)` (src/selector.go). -/
def CreateBatchSelector (ids : List Int) (maxID : Int) : Except GoErr SelectorModel :=
  (CreateBatchSelectorS ids maxID).2

/-- Go `CreateRangeSelector(start, end, maxID)` from src/selector.go:
negativity check, ordering check, `start >= maxID` rejection when a bound is
set, silent clamp of `end` down to `maxID`, then range-selector
construction. -/
def CreateRangeSelector (start end_ maxID : Int) : Except GoErr SelectorModel :=
  if start < 0 ∨ end_ < 0 then .error (.msg "negative range values")
  else if start ≥ end_ then .error (.msg "invalid range: start >= end")
  else if maxID ≥ 0 ∧ start ≥ maxID then .error (.msg "range start >= maxID")
  else
    let clamped := if maxID ≥ 0 ∧ end_ > maxID then maxID else end_
    NewIDSelectorRange start clamped

/-- Go `BatchSelectorBuilder` from src/selector.go. -/
structure BatchSelectorBuilder where
  ids : List Int
  maxID : Int
  sorted : Bool
deriving DecidableEq, Repr

/-- Go `NewBatchSelectorBuilder()` from src/selector.go. -/
def NewBatchSelectorBuilder : BatchSelectorBuilder :=
  { ids := [], maxID := -1, sorted := false }

/-- Go `(*BatchSelectorBuilder).AddID(id)` from src/selector.go. -/
def BatchSelectorBuilder.AddID (b : BatchSelectorBuilder) (id : Int) :
    BatchSelectorBuilder :=
  { b with ids := b.ids ++ [id], sorted := false }

/-- Go `(*BatchSelectorBuilder).AddIDs(ids...)` from src/selector.go. -/
def BatchSelectorBuilder.AddIDs (b : BatchSelectorBuilder) (ids : List Int) :
    BatchSelectorBuilder :=
  { b with ids := b.ids ++ ids, sorted := false }

/-- Go `(*BatchSelectorBuilder).Build()` from src/selector.go, with the
`CreateBatchSelector` side effect on the builder's accumulated slice made
explicit: the returned builder carries the post-call state of `b.ids`. -/
def BatchSelectorBuilder.Build (b : BatchSelectorBuilder) :
    BatchSelectorBuilder × Except GoErr SelectorModel :=
  if b.ids = [] then (b, .error (.msg "no IDs added to selector"))
  else
    let r := CreateBatchSelectorS b.ids b.maxID
    ({ b with ids := r.1 }, r.2)

/-- Go `strings.ContainsAny(s, "<>:\"|?*")` as used by `ValidateFilePath`
(src/index_io.go). -/
def hasInvalidPathChars (s : String) : Bool :=
  s.toList.any (fun c => "<>:\"|?*".toList.contains c)

/-- Go `ValidateFilePath(filename, mustExist)` from src/index_io.go.  The
`os.Stat` existence probe is an external filesystem effect, modelled by the
explicit `fileExists` input (other `stat` failures are elided). -/
def ValidateFilePath (filename : String) (mustExist : Bool) (fileExists : Bool) :
    Except GoErr Unit :=
  if filename = "" then .error (.msg "filename is empty")
  else if hasInvalidPathChars filename then
    .error (.msg "filename contains invalid characters")
  else if mustExist ∧ ¬ fileExists then .error (.msg "file does not exist")
  else .ok ()

/-- Go `WriteIndex(idx, filename)` from src/index_io.go: interface-nil check,
empty-filename check, path validation, directory creation (an out-of-scope
filesystem utility, modelled as succeeding — spec §1), then the engine's
`faiss_write_index_fname`.  The engine write is external; whether it fails,
and with what message, is an input (`engineFail`), which is how the spec's
"simulated persistence failure" scenario (§8) enters the model.  The caller
is responsible for updating the modelled file content on success. -/
def WriteIndex (engineFail : Option String) (idxIsNil : Bool) (filename : String) :
    Except GoErr Unit :=
  if idxIsNil then .error (.msg "index is nil")
  else if filename = "" then .error (.msg "filename is empty")
  else
    match ValidateFilePath filename false false with
    | .error e => .error (wrapError e "write index path validation")
    | .ok _ =>
      match engineFail with
      | some m => .error (wrapError (.msg m) "write index")
      | none => .ok ()

/-- Classifier for the errors that Go `WriteIndex` (src/index_io.go) can
produce — exactly the two `errors.New` messages and the three `wrapError`
context strings appearing in its body.  A caller can decide persistence
divergence by this test, because (as proved below) no error surfaced by an
in-memory mutation on `faissIndex` has this shape. -/
def isPersistenceErr : GoErr → Bool
  | .msg s => s = "index is nil" ∨ s = "filename is empty"
  | .wrap ctx _ =>
    ctx = "write index path validation" ∨ ctx = "create directory" ∨ ctx = "write index"

/-- Go `PersistentIndex` from src/unnamed/part_001 together with the state of
the file at its `path`: `mem` is the wrapped in-memory `Index`, `file` the
current serialized content on disk (`none` when absent).  The `sync.RWMutex`
serializes the mutating calls and is elided from this sequential model. -/
structure PWorld where
  mem : faissIndex
  path : String
  file : Option faissIndex
deriving DecidableEq, Repr

/-- Go `(*PersistentIndex).Add(x)` from src/unnamed/part_001: mutate in memory
via the wrapped handle; on success, serialize the whole index to `path`
(`WriteIndex`).  Returns the world after the call and the returned error, if
any. -/
def PersistentIndex.Add (engineWriteFail : Option String) (w : PWorld)
    (x : List Int) : PWorld × Option GoErr :=
  match w.mem.Add x with
  | .error e => (w, some e)
  | .ok m' =>
    match WriteIndex engineWriteFail false w.path with
    | .error e => ({ w with mem := m' }, some e)
    | .ok _ => ({ w with mem := m', file := some m' }, none)

/-- Go `(*PersistentIndex).AddWithIDs(x, xids)` from src/unnamed/part_001. -/
def PersistentIndex.AddWithIDs (engineWriteFail : Option String) (w : PWorld)
    (x : List Int) (xids : List Int) : PWorld × Option GoErr :=
  match w.mem.AddWithIDs x xids with
  | .error e => (w, some e)
  | .ok m' =>
    match WriteIndex engineWriteFail false w.path with
    | .error e => ({ w with mem := m' }, some e)
    | .ok _ => ({ w with mem := m', file := some m' }, none)

/-- Go `(*PersistentIndex).RemoveIDs(sel)` from src/unnamed/part_001: on an
in-memory failure returns `(0, err)`; on a persistence failure after a
successful removal returns the removed count together with the disk error. -/
def PersistentIndex.RemoveIDs (engineWriteFail : Option String) (w : PWorld)
    (sel : Option SelectorModel) : PWorld × Nat × Option GoErr :=
  match w.mem.RemoveIDs sel with
  | .error e => (w, 0, some e)
  | .ok (n, m') =>
    match WriteIndex engineWriteFail false w.path with
    | .error e => ({ w with mem := m' }, n, some e)
    | .ok _ => ({ w with mem := m', file := some m' }, n, none)

/-- Go `(*IndexFlat).ComputeDistancesBatch(queries, batchSize)` from
src/index_flat.go: nil check, query validation, empty-index check, default
batch size substitution, `SearchBatch` with `k = ntotal`, then the copy loop
into the preallocated zeroed `numQueries*ntotal` result buffer.  The copy of
row `i` is guarded by `i < len(distances) && i < len(distances[i])`, and
`copy` transfers `min(ntotal, len(row))` elements, the rest of the block
staying zero — both modelled verbatim. -/
def IndexFlat.ComputeDistancesBatch (idx : faissIndex) (queries : List Int)
    (batchSize : Int) : Except GoErr (List Int) :=
  if idx.isNull then .error (.msg "index is nil")
  else
    match ValidateVectors queries idx.D with
    | .error e => .error (wrapError e "validate queries")
    | .ok _ =>
      let ntotal := idx.Ntotal
      if ntotal = 0 then .error (.msg "index is empty")
      else
        let bs := if batchSize ≤ 0 then DefaultSearchBatchSize else batchSize
        match idx.SearchBatch queries ntotal bs with
        | .error e => .error (wrapError e "compute distances batch")
        | .ok (distances, _) =>
          let nt := ntotal.toNat
          let numQueries := queries.length / idx.dim
          let block : Nat → List Int := fun i =>
            match distances.get? i with
            | some row =>
              if i < row.length then
                row.take nt ++ List.replicate (nt - row.length) 0
              else List.replicate nt 0
            | none => List.replicate nt 0
          .ok (((List.range numQueries).map block).flatten)

/-- The index state observed after a call in the functional model: the new
state on success, the untouched receiver on error (Go methods that fail
before the engine call leave the index unchanged). -/
def mutResult (r : Except GoErr faissIndex) (idx : faissIndex) : faissIndex :=
  match r with
  | .ok idx' => idx'
  | .error _ => idx

/-- Whether an `Except` result is a success. -/
def isOkE {β : Type} : Except GoErr β → Bool
  | .ok _ => true
  | .error _ => false

/-- A concrete trained 1-dimensional flat index holding the vectors `[0]` and
`[5]`, used to instantiate hypotheses of the general theorems. -/
def flatIndex1 : faissIndex :=
  { isNull := false, dim := 1, trained := true, data := [0, 5] }

/-- A concrete trained, empty 1-dimensional flat index. -/
def emptyIndex1 : faissIndex :=
  { isNull := false, dim := 1, trained := true, data := [] }

/-- A concrete persistent-index world over `emptyIndex1` whose file has not
been written yet. -/
def world1 : PWorld := { mem := emptyIndex1, path := "idx.faiss", file := none }

/-- The copy loop of `ComputeDistancesBatch` (src/index_flat.go) abstracted
over the per-query distance rows `F`: block `i` of the `numQ × ntN` output is
row `i` when the guard `i < len(distances) && i < len(distances[i])` lets the
`copy` run, and zeros otherwise.  `IndexFlat.ComputeDistancesBatch` reduces to
this term once its `SearchBatch` call is resolved. -/
def distanceBlocks (F : Nat → List Int) (numQ ntN : Nat) : List Int :=
  ((List.range numQ).map (fun i =>
    match ((List.range numQ).map F).get? i with
    | some row =>
      if i < row.length then
        row.take ntN ++ List.replicate (ntN - row.length) 0
      else List.replicate ntN 0
    | none => List.replicate ntN 0)).flatten

/-! ## Theorems -/

/-- C7: for every `min` and `max`, `NewIDSelectorRange(min, max)` returns an
error (and no selector) exactly when `min < 0`, `max < 0`, or `min ≥ max`;
otherwise it constructs the selector over the half-open range `[min, max)`. -/
theorem NewIDSelectorRange_spec (imin imax : Int) :
    ((∃ e, NewIDSelectorRange imin imax = .error e) ↔
      imin < 0 ∨ imax < 0 ∨ imax ≤ imin) ∧
    (0 ≤ imin → imin < imax →
      NewIDSelectorRange imin imax = .ok (.range imin imax) ∧
      ∀ id : Int, (SelectorModel.range imin imax).matches id = true ↔
        imin ≤ id ∧ id < imax) := by
  unfold NewIDSelectorRange
  constructor
  · constructor
    · rintro ⟨e, he⟩
      split_ifs at he with h1 h2
      · omega
      · omega
    · intro h
      split_ifs with h1 h2
      · exact ⟨_, rfl⟩
      · exact ⟨_, rfl⟩
      · omega
  · intro hmin hlt
    split_ifs with h1 h2
    · omega
    · omega
    · refine ⟨rfl, fun id => ?_⟩
      simp [SelectorModel.matches]

/-- Witness for `NewIDSelectorRange_spec` at `min = 0`, `max = 3`. -/
theorem NewIDSelectorRange_spec_witness :
    NewIDSelectorRange 0 3 = .ok (.range 0 3) ∧
    ((SelectorModel.range 0 3).matches 2 = true ↔ (0 : Int) ≤ 2 ∧ (2 : Int) < 3) := by
  have h := (NewIDSelectorRange_spec 0 3).2 (by decide) (by decide)
  exact ⟨h.1, h.2 2⟩

/-- C8: composite selector construction with arguments passing the
nil/emptiness checks always returns the not-implemented error, and none of
`NewIDSelectorAnd`, `NewIDSelectorOr`, `NewIDSelectorNot` ever returns a
selector on any input. -/
theorem compositeSelectors_notImplemented (sels : List (Option SelectorModel))
    (s : SelectorModel) (ntotal : Int) :
    (sels ≠ [] → (∀ x ∈ sels, x ≠ none) →
      NewIDSelectorAnd sels =
        .error (.msg "IDSelectorAnd not implemented - requires additional C bindings")) ∧
    (sels ≠ [] → (∀ x ∈ sels, x ≠ none) →
      NewIDSelectorOr sels =
        .error (.msg "IDSelectorOr not implemented - requires additional C bindings")) ∧
    (0 < ntotal →
      NewIDSelectorNot (some s) ntotal =
        .error (.msg "IDSelectorNot not implemented - requires additional C bindings")) ∧
    (∀ r, NewIDSelectorAnd sels ≠ .ok r) ∧
    (∀ r, NewIDSelectorOr sels ≠ .ok r) ∧
    (∀ r, NewIDSelectorNot (some s) ntotal ≠ .ok r) := by
  have hnil : ∀ (h : ∀ x ∈ sels, x ≠ none), sels.any (fun s => s.isNone) = false := by
    intro h
    simp only [List.any_eq_false, Option.isNone_iff_eq_none]
    exact h
  refine ⟨?_, ?_, ?_, ?_, ?_, ?_⟩
  · intro h1 h2
    unfold NewIDSelectorAnd
    rw [if_neg h1, hnil h2]
    simp
  · intro h1 h2
    unfold NewIDSelectorOr
    rw [if_neg h1, hnil h2]
    simp
  · intro h
    unfold NewIDSelectorNot
    rw [if_neg (by simp), if_neg (by omega)]
  · intro r
    unfold NewIDSelectorAnd
    split_ifs <;> simp
  · intro r
    unfold NewIDSelectorOr
    split_ifs <;> simp
  · intro r
    unfold NewIDSelectorNot
    split_ifs <;> simp

/-- Witness for `compositeSelectors_notImplemented` on two valid range
selectors and `ntotal = 5`. -/
theorem compositeSelectors_notImplemented_witness :
    NewIDSelectorAnd [some (.range 0 3), some (.range 1 4)] =
      .error (.msg "IDSelectorAnd not implemented - requires additional C bindings") ∧
    NewIDSelectorOr [some (.range 0 3), some (.range 1 4)] =
      .error (.msg "IDSelectorOr not implemented - requires additional C bindings") ∧
    NewIDSelectorNot (some (.range 0 3)) 5 =
      .error (.msg "IDSelectorNot not implemented - requires additional C bindings") := by
  have h := compositeSelectors_notImplemented
    [some (.range 0 3), some (.range 1 4)] (.range 0 3) 5
  exact ⟨h.1 (by decide) (by decide), h.2.1 (by decide) (by decide), h.2.2.1 (by decide)⟩

/-- C9: `CreateRangeSelector(start, end, maxID)` with a non-negative `maxID`
rejects `start ≥ maxID` with an error, but when `start < maxID < end` it
silently clamps `end` down to `maxID` and constructs the selector over
`[start, maxID)`. -/
theorem CreateRangeSelector_clamps (start end_ maxID : Int) :
    (0 ≤ maxID → maxID ≤ start → ∃ e, CreateRangeSelector start end_ maxID = .error e) ∧
    (0 ≤ start → start < maxID → maxID < end_ →
      CreateRangeSelector start end_ maxID = .ok (.range start maxID) ∧
      ∀ id : Int, (SelectorModel.range start maxID).matches id = true ↔
        start ≤ id ∧ id < maxID) := by
  constructor
  · intro h1 h2
    unfold CreateRangeSelector
    by_cases g1 : start < 0 ∨ end_ < 0
    · rw [if_pos g1]
      exact ⟨_, rfl⟩
    · rw [if_neg g1]
      by_cases g2 : start ≥ end_
      · rw [if_pos g2]
        exact ⟨_, rfl⟩
      · rw [if_neg g2, if_pos (show maxID ≥ 0 ∧ start ≥ maxID by omega)]
        exact ⟨_, rfl⟩
  · intro h1 h2 h3
    unfold CreateRangeSelector
    rw [if_neg (by omega), if_neg (by omega), if_neg (by omega)]
    show NewIDSelectorRange start (if maxID ≥ 0 ∧ end_ > maxID then maxID else end_) = _ ∧ _
    rw [if_pos (show maxID ≥ 0 ∧ end_ > maxID by omega)]
    unfold NewIDSelectorRange
    rw [if_neg (by omega), if_neg (by omega)]
    refine ⟨rfl, fun id => ?_⟩
    simp [SelectorModel.matches]

/-- Witness for `CreateRangeSelector_clamps`: rejection at
`(start, end, maxID) = (7, 9, 5)` and clamping at `(2, 9, 5)`. -/
theorem CreateRangeSelector_clamps_witness :
    (∃ e, CreateRangeSelector 7 9 5 = .error e) ∧
    CreateRangeSelector 2 9 5 = .ok (.range 2 5) := by
  exact ⟨(CreateRangeSelector_clamps 7 9 5).1 (by decide) (by decide),
    ((CreateRangeSelector_clamps 2 9 5).2 (by decide) (by decide) (by decide)).1⟩

/-- C4 (code bug): `SearchBatch` on an empty queries buffer does not return
empty result lists — for every dimension, data buffer, trained flag, `k` and
batch size, it fails with the empty-vectors validation error, because
`ValidateVectors` rejects the empty buffer before the `totalQueries == 0`
early-return branch (src/index.go) can be reached. -/
theorem SearchBatch_emptyQueries_errors (d : Nat) (tr : Bool) (data : List Int)
    (k batchSize : Int) :
    faissIndex.SearchBatch { isNull := false, dim := d, trained := tr, data := data }
      [] k batchSize = .error (.wrap "search batch queries validation" ErrEmptyVectors) := by
  simp [faissIndex.SearchBatch, ValidateVectors, wrapError]

lemma sortIds_perm (l : List Int) : (sortIds l).Perm l :=
  List.perm_insertionSort _ l

lemma sortIds_sorted (l : List Int) : List.Sorted (· ≤ ·) (sortIds l) :=
  List.sorted_insertionSort _ l

lemma mem_dedupGo (l : List Int) :
    ∀ prev a : Int, a ∈ prev :: dedupGo prev l ↔ a ∈ prev :: l := by
  induction l with
  | nil => intro prev a; simp [dedupGo]
  | cons y ys ih =>
    intro prev a
    by_cases h : y = prev
    · subst h
      rw [show dedupGo y (y :: ys) = dedupGo y ys from by simp [dedupGo]]
      have hy := ih y a
      simp only [List.mem_cons] at hy ⊢
      tauto
    · rw [show dedupGo prev (y :: ys) = y :: dedupGo y ys from by simp [dedupGo, h]]
      have hy := ih y a
      simp only [List.mem_cons] at hy ⊢
      tauto

lemma chain_dedupGo (l : List Int) :
    ∀ prev : Int, List.Chain' (· ≤ ·) (prev :: l) →
      List.Chain' (· < ·) (prev :: dedupGo prev l) := by
  induction l with
  | nil => intro prev _; simp [dedupGo]
  | cons y ys ih =>
    intro prev h
    rw [List.chain'_cons] at h
    by_cases hy : y = prev
    · subst hy
      rw [show dedupGo y (y :: ys) = dedupGo y ys from by simp [dedupGo]]
      exact ih y h.2
    · rw [show dedupGo prev (y :: ys) = y :: dedupGo y ys from by simp [dedupGo, hy]]
      rw [List.chain'_cons]
      exact ⟨lt_of_le_of_ne h.1 (Ne.symm hy), ih y h.2⟩

lemma sorted_lt_dedupAdjacent {l : List Int} (h : List.Sorted (· ≤ ·) l) :
    List.Sorted (· < ·) (dedupAdjacent l) := by
  cases l with
  | nil => simp [dedupAdjacent]
  | cons x xs =>
    have hc : List.Chain' (· ≤ ·) (x :: xs) := List.chain'_iff_pairwise.mpr h
    have hlt := chain_dedupGo xs x hc
    rw [show dedupAdjacent (x :: xs) = x :: dedupGo x xs from rfl]
    exact List.chain'_iff_pairwise.mp hlt

lemma mem_dedupAdjacent {l : List Int} {a : Int} : a ∈ dedupAdjacent l ↔ a ∈ l := by
  cases l with
  | nil => simp [dedupAdjacent]
  | cons x xs =>
    rw [show dedupAdjacent (x :: xs) = x :: dedupGo x xs from rfl]
    exact mem_dedupGo xs x a

lemma removeDuplicateIDs_sorted (ids : List Int) :
    List.Sorted (· < ·) (RemoveDuplicateIDs ids) := by
  unfold RemoveDuplicateIDs RemoveDuplicateIDsS
  split_ifs with h
  · simp [h]
  · exact sorted_lt_dedupAdjacent (sortIds_sorted ids)

lemma mem_removeDuplicateIDs (ids : List Int) (a : Int) :
    a ∈ RemoveDuplicateIDs ids ↔ a ∈ ids := by
  unfold RemoveDuplicateIDs RemoveDuplicateIDsS
  split_ifs with h
  · simp [h]
  · exact mem_dedupAdjacent.trans (sortIds_perm ids).mem_iff

lemma sorted_lt_eq_of_mem_iff {l1 l2 : List Int} (h1 : List.Sorted (· < ·) l1)
    (h2 : List.Sorted (· < ·) l2) (hmem : ∀ x, x ∈ l1 ↔ x ∈ l2) : l1 = l2 := by
  haveI : IsAntisymm Int (· < ·) :=
    ⟨fun a b hab hba => absurd hba (not_lt.mpr (le_of_lt hab))⟩
  refine List.eq_of_perm_of_sorted ?_ h1 h2
  refine List.perm_of_nodup_nodup_toFinset_eq h1.nodup h2.nodup ?_
  ext x
  simp only [List.mem_toFinset]
  exact hmem x

/-- C6: `RemoveDuplicateIDs` returns a strictly increasing list containing
exactly the distinct elements of its input, and (because `CreateBatchSelector`
applies it before validation and construction) explicit-set selector
construction is invariant under reordering and duplication: ID lists with the
same element set yield the same deduplicated list and the same construction
result. -/
theorem RemoveDuplicateIDs_spec (ids l1 l2 : List Int) (maxID : Int) :
    List.Sorted (· < ·) (RemoveDuplicateIDs ids) ∧
    (∀ x, x ∈ RemoveDuplicateIDs ids ↔ x ∈ ids) ∧
    (l1.toFinset = l2.toFinset →
      RemoveDuplicateIDs l1 = RemoveDuplicateIDs l2 ∧
      CreateBatchSelector l1 maxID = CreateBatchSelector l2 maxID) := by
  refine ⟨removeDuplicateIDs_sorted ids, mem_removeDuplicateIDs ids, ?_⟩
  intro hset
  have hmem : ∀ x, x ∈ l1 ↔ x ∈ l2 := by
    intro x
    rw [← List.mem_toFinset, hset, List.mem_toFinset]
  have hdup : RemoveDuplicateIDs l1 = RemoveDuplicateIDs l2 :=
    sorted_lt_eq_of_mem_iff (removeDuplicateIDs_sorted l1) (removeDuplicateIDs_sorted l2)
      (fun x => (mem_removeDuplicateIDs l1 x).trans
        ((hmem x).trans (mem_removeDuplicateIDs l2 x).symm))
  refine ⟨hdup, ?_⟩
  by_cases h1 : l1 = []
  · have h2 : l2 = [] := by
      rw [← List.toFinset_eq_empty_iff, ← hset, List.toFinset_eq_empty_iff]
      exact h1
    rw [h1, h2]
  · have h2 : l2 ≠ [] := by
      intro h2
      exact h1 (by rw [← List.toFinset_eq_empty_iff, hset, List.toFinset_eq_empty_iff]; exact h2)
    unfold CreateBatchSelector CreateBatchSelectorS
    rw [if_neg h1, if_neg h2]
    have hd2 : (RemoveDuplicateIDsS l1).2 = (RemoveDuplicateIDsS l2).2 := hdup
    dsimp only
    rw [hd2]
    rcases hv : ValidateIDs (RemoveDuplicateIDsS l2).2 maxID with e | u <;> simp [hv]

/-- Witness for `RemoveDuplicateIDs_spec` at the spec's example inputs
`[3,1,2,1]` and `[1,2,3]`. -/
theorem RemoveDuplicateIDs_spec_witness :
    RemoveDuplicateIDs [3, 1, 2, 1] = RemoveDuplicateIDs [1, 2, 3] ∧
    CreateBatchSelector [3, 1, 2, 1] (-1) = CreateBatchSelector [1, 2, 3] (-1) :=
  (RemoveDuplicateIDs_spec [3, 1, 2, 1] [3, 1, 2, 1] [1, 2, 3] (-1)).2.2 (by decide)

/-- C10: `RemoveDuplicateIDs` sorts the caller's slice in place as a side
effect — after the call on a non-empty input the argument buffer is an
ascending reordering of the original, while the returned slice is its
adjacent-deduplication — and `CreateBatchSelector` and
`BatchSelectorBuilder.Build`, which call it, leave the same sorted buffer
behind. -/
theorem RemoveDuplicateIDs_sortsInPlace (ids : List Int) (maxID : Int)
    (b : BatchSelectorBuilder) :
    (ids ≠ [] →
      ((RemoveDuplicateIDsS ids).1).Perm ids ∧
      List.Sorted (· ≤ ·) (RemoveDuplicateIDsS ids).1 ∧
      (RemoveDuplicateIDsS ids).2 = dedupAdjacent (RemoveDuplicateIDsS ids).1) ∧
    (ids ≠ [] → (CreateBatchSelectorS ids maxID).1 = (RemoveDuplicateIDsS ids).1) ∧
    (b.ids ≠ [] →
      (b.Build.1.ids).Perm b.ids ∧ List.Sorted (· ≤ ·) b.Build.1.ids) := by
  have hmain : ∀ l : List Int, l ≠ [] →
      ((RemoveDuplicateIDsS l).1).Perm l ∧
      List.Sorted (· ≤ ·) (RemoveDuplicateIDsS l).1 ∧
      (RemoveDuplicateIDsS l).2 = dedupAdjacent (RemoveDuplicateIDsS l).1 := by
    intro l hl
    unfold RemoveDuplicateIDsS
    rw [if_neg hl]
    exact ⟨sortIds_perm l, sortIds_sorted l, rfl⟩
  have hcreate : ∀ (l : List Int) (m : Int), l ≠ [] →
      (CreateBatchSelectorS l m).1 = (RemoveDuplicateIDsS l).1 := by
    intro l m hl
    unfold CreateBatchSelectorS
    rw [if_neg hl]
    rcases hv : ValidateIDs (RemoveDuplicateIDsS l).2 m with e | u <;> simp [hv]
  refine ⟨hmain ids, hcreate ids maxID, ?_⟩
  intro hb
  have hbuild : b.Build.1.ids = (RemoveDuplicateIDsS b.ids).1 := by
    unfold BatchSelectorBuilder.Build
    rw [if_neg hb]
    simpa using hcreate b.ids b.maxID hb
  rw [hbuild]
  exact ⟨(hmain b.ids hb).1, (hmain b.ids hb).2.1⟩

/-- Witness for `RemoveDuplicateIDs_sortsInPlace` at input `[3,1,2,1]`. -/
theorem RemoveDuplicateIDs_sortsInPlace_witness :
    ((RemoveDuplicateIDsS [3, 1, 2, 1]).1).Perm [3, 1, 2, 1] ∧
    List.Sorted (· ≤ ·) (RemoveDuplicateIDsS [3, 1, 2, 1]).1 ∧
    (RemoveDuplicateIDsS [3, 1, 2, 1]).2 =
      dedupAdjacent (RemoveDuplicateIDsS [3, 1, 2, 1]).1 :=
  (RemoveDuplicateIDs_sortsInPlace [3, 1, 2, 1] (-1) NewBatchSelectorBuilder).1 (by decide)

lemma D_of_notNull {idx : faissIndex} (h : idx.isNull = false) :
    idx.D = (idx.dim : Int) := by
  unfold faissIndex.D
  rw [h]
  rfl

lemma isTrained_of_notNull {idx : faissIndex} (h : idx.isNull = false)
    (ht : idx.trained = true) : idx.IsTrained = true := by
  unfold faissIndex.IsTrained
  rw [h]
  exact ht

lemma validateVectors_ok {vectors : List Int} {d : Int} (h0 : vectors.length ≠ 0)
    (hd : 0 < d) (hdiv : (vectors.length : Int) % d = 0) :
    ValidateVectors vectors d = .ok () := by
  unfold ValidateVectors
  rw [if_neg h0, if_neg (by omega), if_neg (not_not_intro hdiv)]

lemma add_ok (idx : faissIndex) (x : List Int) (hnull : idx.isNull = false)
    (htr : idx.trained = true) (hd : 0 < idx.dim) (hx : x.length ≠ 0)
    (hdiv : x.length % idx.dim = 0) :
    idx.Add x = .ok { idx with data := idx.data ++ x } := by
  have hv : ValidateVectors x idx.D = .ok () := by
    rw [D_of_notNull hnull]
    exact validateVectors_ok hx (by omega) (by omega)
  unfold faissIndex.Add
  rw [hnull, if_neg Bool.false_ne_true, hv]
  dsimp only
  rw [isTrained_of_notNull hnull htr, if_neg (by simp)]

lemma take_drop_chunk (l : List Int) (m n : Nat) (hmn : m ≤ n) (hn : n ≤ l.length) :
    (l.take n).drop m ++ l.drop n = l.drop m := by
  conv_rhs => rw [← List.take_append_drop n l]
  rw [List.drop_append_eq_append_drop, List.length_take, Nat.min_eq_left hn,
    Nat.sub_eq_zero_of_le hmn, List.drop_zero]

lemma addBatchLoop_ok (vectors : List Int) (d bs total : Nat) (hbs : 0 < bs)
    (hd : 0 < d) (htot : total * d = vectors.length) :
    ∀ (fuel i : Nat) (s : faissIndex), total - i ≤ fuel →
      s.isNull = false → s.trained = true → s.dim = d →
      addBatchLoop vectors d bs total fuel i s =
        .ok { s with data := s.data ++ vectors.drop (i * d) } := by
  intro fuel
  induction fuel with
  | zero =>
    intro i s hle hnull htr hdim
    have hge : total ≤ i := by omega
    have hdrop : vectors.drop (i * d) = [] := by
      apply List.drop_eq_nil_of_le
      rw [← htot]
      exact Nat.mul_le_mul_right d hge
    rw [addBatchLoop, hdrop]
    simp
  | succ fuel ih =>
    intro i s hle hnull htr hdim
    by_cases hi : i < total
    · rw [addBatchLoop, if_pos hi]
      have hie : i < min (i + bs) total := by omega
      have hetot : min (i + bs) total ≤ total := by omega
      have hed : min (i + bs) total * d ≤ vectors.length := by
        rw [← htot]
        exact Nat.mul_le_mul_right d hetot
      have hlen : ((vectors.take (min (i + bs) total * d)).drop (i * d)).length
          = min (i + bs) total * d - i * d := by
        simp [List.length_take, Nat.min_eq_left hed]
      have hlenpos : min (i + bs) total * d - i * d ≠ 0 := by
        have : i * d < min (i + bs) total * d := (Nat.mul_lt_mul_right hd).mpr hie
        omega
      have hmod : ((vectors.take (min (i + bs) total * d)).drop (i * d)).length % s.dim = 0 := by
        rw [hlen, hdim, ← Nat.sub_mul]
        exact Nat.mul_mod_left _ _
      dsimp only
      rw [add_ok s _ hnull htr (by omega) (by rw [hlen]; exact hlenpos) hmod]
      dsimp only
      rw [ih (i + bs)
        { isNull := s.isNull, dim := s.dim, trained := s.trained,
          data := s.data ++ (vectors.take (min (i + bs) total * d)).drop (i * d) }
        (by omega) hnull htr hdim]
      have hdropeq : vectors.drop ((i + bs) * d) = vectors.drop (min (i + bs) total * d) := by
        rcases le_or_lt (i + bs) total with hc | hc
        · rw [Nat.min_eq_left hc]
        · rw [Nat.min_eq_right (le_of_lt hc)]
          have h1 : vectors.drop ((i + bs) * d) = [] := by
            apply List.drop_eq_nil_of_le
            rw [← htot]
            exact Nat.mul_le_mul_right d (le_of_lt hc)
          have h2 : vectors.drop (total * d) = [] := by
            apply List.drop_eq_nil_of_le
            omega
          rw [h1, h2]
      have hkey : (vectors.take (min (i + bs) total * d)).drop (i * d) ++
          vectors.drop ((i + bs) * d) = vectors.drop (i * d) := by
        rw [hdropeq]
        exact take_drop_chunk vectors (i * d) (min (i + bs) total * d)
          (Nat.mul_le_mul_right d (le_of_lt hie)) hed
      dsimp only
      rw [List.append_assoc, hkey]
    · rw [addBatchLoop, if_neg hi]
      have hdrop : vectors.drop (i * d) = [] := by
        apply List.drop_eq_nil_of_le
        rw [← htot]
        exact Nat.mul_le_mul_right d (by omega)
      rw [hdrop]
      simp

lemma addBatch_ok (idx : faissIndex) (vectors : List Int) (batchSize : Int)
    (hnull : idx.isNull = false) (htr : idx.trained = true) (hd : 0 < idx.dim)
    (hx : vectors.length ≠ 0) (hdiv : vectors.length % idx.dim = 0) :
    idx.AddBatch vectors batchSize = .ok { idx with data := idx.data ++ vectors } := by
  have hdvd : idx.dim ∣ vectors.length := Nat.dvd_of_mod_eq_zero hdiv
  have htotmul : (vectors.length / idx.dim) * idx.dim = vectors.length :=
    Nat.div_mul_cancel hdvd
  have htotpos : 0 < vectors.length / idx.dim :=
    Nat.div_pos (Nat.le_of_dvd (Nat.pos_of_ne_zero hx) hdvd) hd
  have hv : ValidateVectors vectors idx.D = .ok () := by
    rw [D_of_notNull hnull]
    exact validateVectors_ok hx (by omega) (by omega)
  unfold faissIndex.AddBatch
  rw [hnull, if_neg Bool.false_ne_true]
  dsimp only
  rw [hv]
  dsimp only
  rw [isTrained_of_notNull hnull htr, if_neg (by simp), if_neg (by omega)]
  refine (addBatchLoop_ok vectors idx.dim _ _ ?_ hd htotmul _ 0 idx ?_ hnull htr rfl).trans ?_
  · have h1 : (0 : Int) < if batchSize ≤ 0 then DefaultAddBatchSize else batchSize := by
      split_ifs
      · simp [DefaultAddBatchSize]
      · omega
    split_ifs <;> omega
  · omega
  · rw [Nat.zero_mul, List.drop_zero, hnull]

/-- C2: for every trained index of positive dimension and every vector buffer
whose length is a multiple of the dimension, `AddBatch` with any batch size —
positive, `1`, larger than the total, or non-positive (substituted by the
default) — leaves the index in exactly the state of a single unbatched `Add`,
and succeeds exactly when `Add` does. -/
theorem AddBatch_eq_Add (idx : faissIndex) (vectors : List Int) (batchSize : Int)
    (hnull : idx.isNull = false) (htr : idx.trained = true) (hd : 0 < idx.dim)
    (hdiv : vectors.length % idx.dim = 0) :
    mutResult (idx.AddBatch vectors batchSize) idx = mutResult (idx.Add vectors) idx ∧
    isOkE (idx.AddBatch vectors batchSize) = isOkE (idx.Add vectors) := by
  by_cases hx : vectors.length = 0
  · have h1 : idx.Add vectors = .error (wrapError ErrEmptyVectors "add vectors validation") := by
      unfold faissIndex.Add
      rw [hnull, if_neg Bool.false_ne_true]
      rw [show ValidateVectors vectors idx.D = .error ErrEmptyVectors from by
        unfold ValidateVectors; rw [if_pos hx]]
    have h2 : idx.AddBatch vectors batchSize =
        .error (wrapError ErrEmptyVectors "add batch vectors validation") := by
      unfold faissIndex.AddBatch
      rw [hnull, if_neg Bool.false_ne_true]
      dsimp only
      rw [show ValidateVectors vectors idx.D = .error ErrEmptyVectors from by
        unfold ValidateVectors; rw [if_pos hx]]
    rw [h1, h2]
    exact ⟨rfl, rfl⟩
  · rw [addBatch_ok idx vectors batchSize hnull htr hd hx hdiv,
      add_ok idx vectors hnull htr hd hx hdiv]
    exact ⟨rfl, rfl⟩

/-- Witness for `AddBatch_eq_Add`: three 1-dimensional vectors added to
`flatIndex1` in batches of 2. -/
theorem AddBatch_eq_Add_witness :
    mutResult (flatIndex1.AddBatch [7, 8, 9] 2) flatIndex1 =
      mutResult (flatIndex1.Add [7, 8, 9]) flatIndex1 ∧
    isOkE (flatIndex1.AddBatch [7, 8, 9] 2) = isOkE (flatIndex1.Add [7, 8, 9]) :=
  AddBatch_eq_Add flatIndex1 [7, 8, 9] 2 (by decide) (by decide) (by decide) (by decide)

lemma search_ok (idx : faissIndex) (x : List Int) (k : Int)
    (hnull : idx.isNull = false) (htr : idx.trained = true) (hd : 0 < idx.dim)
    (hx : x.length ≠ 0) (hdiv : x.length % idx.dim = 0) (hk : 0 < k) :
    idx.Search x k = .ok (engineSearch idx.data idx.dim x k.toNat) := by
  have hv : ValidateVectors x idx.D = .ok () := by
    rw [D_of_notNull hnull]
    exact validateVectors_ok hx (by omega) (by omega)
  have hkv : ValidateK k = .ok () := by
    unfold ValidateK
    rw [if_neg (by omega)]
  unfold faissIndex.Search
  rw [hnull, if_neg Bool.false_ne_true, hv]
  dsimp only
  rw [hkv]
  dsimp only
  rw [isTrained_of_notNull hnull htr, if_neg (by simp)]

lemma length_engineSearchRow_fst (data : List Int) (d : Nat) (q : List Int) (k : Nat) :
    ((engineSearchRow data d q k).1).length = k := by
  unfold engineSearchRow
  dsimp only
  rw [List.length_map, List.length_take, List.length_append, List.length_replicate]
  omega

lemma length_engineSearchRow_snd (data : List Int) (d : Nat) (q : List Int) (k : Nat) :
    ((engineSearchRow data d q k).2).length = k := by
  unfold engineSearchRow
  dsimp only
  rw [List.length_map, List.length_take, List.length_append, List.length_replicate]
  omega

lemma sliceBlock_flatten (k : Nat) :
    ∀ (L : List (List Int)) (j : Nat), (∀ l ∈ L, l.length = k) → j < L.length →
      sliceBlock L.flatten k j = L.getD j [] := by
  intro L
  induction L with
  | nil =>
    intro j _ hj
    simp at hj
  | cons x xs ih =>
    intro j hlen hj
    have hx : x.length = k := hlen x (List.mem_cons_self x xs)
    cases j with
    | zero =>
      unfold sliceBlock
      rw [List.flatten_cons, Nat.zero_mul, List.drop_zero, ← hx, List.take_left]
      rfl
    | succ j =>
      unfold sliceBlock
      rw [List.flatten_cons, List.drop_append_eq_append_drop,
        List.drop_eq_nil_of_le (by rw [hx]; exact Nat.le_mul_of_pos_left k (Nat.succ_pos j)),
        List.nil_append, hx,
        show (j + 1) * k - k = j * k from by rw [Nat.succ_mul]; omega]
      have := ih j (fun l hl => hlen l (List.mem_cons_of_mem x hl)) (by simpa using hj)
      unfold sliceBlock at this
      rw [this]
      rfl

lemma length_nthRow (queries : List Int) (d i : Nat) (h : (i + 1) * d ≤ queries.length) :
    (nthRow queries d i).length = d := by
  unfold nthRow
  rw [List.length_take, List.length_drop]
  have : i * d + d ≤ queries.length := by rw [← Nat.succ_mul]; exact h
  omega

lemma nthRow_chunk (queries : List Int) (d i e j : Nat)
    (hj : j < e - i) (_he : e * d ≤ queries.length) :
    nthRow ((queries.take (e * d)).drop (i * d)) d j = nthRow queries d (i + j) := by
  unfold nthRow
  rw [List.drop_drop, List.drop_take, List.take_take]
  have harith : i * d + j * d = (i + j) * d := by rw [Nat.add_mul]
  rw [harith]
  congr 1
  have hij1 : (i + j + 1) * d ≤ e * d := Nat.mul_le_mul_right d (by omega)
  rw [Nat.min_eq_left]
  rw [Nat.add_mul] at hij1
  omega

lemma engineSearch_chunk (data : List Int) (d : Nat) (queries : List Int) (i e : Nat)
    (hd : 0 < d) (he : e * d ≤ queries.length) (k : Nat) :
    engineSearch data d ((queries.take (e * d)).drop (i * d)) k =
      (((List.range (e - i)).map
          (fun j => (engineSearchRow data d (nthRow queries d (i + j)) k).1)).flatten,
       ((List.range (e - i)).map
          (fun j => (engineSearchRow data d (nthRow queries d (i + j)) k).2)).flatten) := by
  unfold engineSearch
  have hlen : ((queries.take (e * d)).drop (i * d)).length = (e - i) * d := by
    rw [List.length_drop, List.length_take, Nat.min_eq_left he, ← Nat.sub_mul]
  rw [hlen, Nat.mul_div_cancel _ hd]
  dsimp only
  have hrows : (List.range (e - i)).map
      (fun j => nthRow ((queries.take (e * d)).drop (i * d)) d j) =
      (List.range (e - i)).map (fun j => nthRow queries d (i + j)) :=
    List.map_congr_left (fun j hj => nthRow_chunk queries d i e j (List.mem_range.mp hj) he)
  rw [hrows, List.map_map, List.map_map]
  rfl

lemma getD_map_range (m i : Nat) (hi : i < m) (F : Nat → List Int) :
    ((List.range m).map F).getD i [] = F i := by
  rw [List.getD_eq_getElem?_getD, List.getElem?_map, List.getElem?_range hi]
  rfl

lemma map_sliceBlock_flatten (g : Nat → List Int) (m k : Nat)
    (hg : ∀ j, (g j).length = k) :
    (List.range m).map (fun j => sliceBlock ((List.range m).map g).flatten k j) =
      (List.range m).map g := by
  apply List.map_congr_left
  intro j hj
  have hj' : j < m := List.mem_range.mp hj
  rw [sliceBlock_flatten k ((List.range m).map g) j
    (by intro l hl; obtain ⟨a, _, rfl⟩ := List.mem_map.mp hl; exact hg a)
    (by simpa using hj')]
  exact getD_map_range m j hj' g

lemma range_map_split (F : Nat → List Int) (i bs total : Nat) (hbs : 0 < bs)
    (hi : i < total) :
    (List.range (min (i + bs) total - i)).map (fun j => F (i + j)) ++
      (List.range (total - (i + bs))).map (fun j => F (i + bs + j)) =
      (List.range (total - i)).map (fun j => F (i + j)) := by
  rcases le_or_lt (i + bs) total with hc | hc
  · rw [Nat.min_eq_left hc,
      show total - i = (i + bs - i) + (total - (i + bs)) from by omega, List.range_add,
      List.map_append, List.map_map]
    congr 1
    apply List.map_congr_left
    intro a _
    simp only [Function.comp]
    congr 1
    omega
  · rw [Nat.min_eq_right (le_of_lt hc),
      show total - (i + bs) = 0 from by omega]
    simp

lemma searchBatchLoop_ok (idx : faissIndex) (queries : List Int) (k : Int)
    (bs total : Nat) (hbs : 0 < bs) (hd : 0 < idx.dim)
    (hnull : idx.isNull = false) (htr : idx.trained = true) (hk : 0 < k)
    (htot : total * idx.dim = queries.length) :
    ∀ (fuel i : Nat), total - i ≤ fuel →
      searchBatchLoop idx queries idx.dim k bs total fuel i =
        .ok ((List.range (total - i)).map
              (fun j => (engineSearchRow idx.data idx.dim (nthRow queries idx.dim (i + j)) k.toNat).1),
             (List.range (total - i)).map
              (fun j => (engineSearchRow idx.data idx.dim (nthRow queries idx.dim (i + j)) k.toNat).2)) := by
  intro fuel
  induction fuel with
  | zero =>
    intro i hle
    rw [searchBatchLoop, show total - i = 0 from by omega]
    simp
  | succ fuel ih =>
    intro i hle
    by_cases hi : i < total
    · rw [searchBatchLoop, if_pos hi]
      dsimp only
      have hetot : min (i + bs) total ≤ total := by omega
      have hie : i < min (i + bs) total := by omega
      have hed : min (i + bs) total * idx.dim ≤ queries.length := by
        rw [← htot]
        exact Nat.mul_le_mul_right idx.dim hetot
      have hblen : ((queries.take (min (i + bs) total * idx.dim)).drop (i * idx.dim)).length
          = (min (i + bs) total - i) * idx.dim := by
        rw [List.length_drop, List.length_take, Nat.min_eq_left hed, ← Nat.sub_mul]
      have hblenpos : ((queries.take (min (i + bs) total * idx.dim)).drop (i * idx.dim)).length ≠ 0 := by
        rw [hblen]
        have h1 : 0 < (min (i + bs) total - i) := by omega
        positivity
      have hbmod : ((queries.take (min (i + bs) total * idx.dim)).drop (i * idx.dim)).length
          % idx.dim = 0 := by
        rw [hblen]
        exact Nat.mul_mod_left _ _
      rw [search_ok idx _ k hnull htr hd hblenpos hbmod hk,
        engineSearch_chunk idx.data idx.dim queries i (min (i + bs) total) hd hed k.toNat]
      dsimp only
      rw [map_sliceBlock_flatten _ _ _ (fun j => length_engineSearchRow_fst _ _ _ _),
        map_sliceBlock_flatten _ _ _ (fun j => length_engineSearchRow_snd _ _ _ _),
        ih (i + bs) (by omega)]
      dsimp only
      have h1 := range_map_split
        (fun a => (engineSearchRow idx.data idx.dim (nthRow queries idx.dim a) k.toNat).1)
        i bs total hbs hi
      have h2 := range_map_split
        (fun a => (engineSearchRow idx.data idx.dim (nthRow queries idx.dim a) k.toNat).2)
        i bs total hbs hi
      dsimp only at h1 h2
      rw [h1, h2]
    · rw [searchBatchLoop, if_neg hi, show total - i = 0 from by omega]
      simp

lemma searchBatch_ok (idx : faissIndex) (queries : List Int) (k batchSize : Int)
    (hnull : idx.isNull = false) (htr : idx.trained = true) (hd : 0 < idx.dim)
    (hq : queries.length ≠ 0) (hdiv : queries.length % idx.dim = 0) (hk : 0 < k) :
    idx.SearchBatch queries k batchSize =
      .ok ((List.range (queries.length / idx.dim)).map
            (fun i => (engineSearchRow idx.data idx.dim (nthRow queries idx.dim i) k.toNat).1),
           (List.range (queries.length / idx.dim)).map
            (fun i => (engineSearchRow idx.data idx.dim (nthRow queries idx.dim i) k.toNat).2)) := by
  have hdvd : idx.dim ∣ queries.length := Nat.dvd_of_mod_eq_zero hdiv
  have htotmul : (queries.length / idx.dim) * idx.dim = queries.length :=
    Nat.div_mul_cancel hdvd
  have htotpos : 0 < queries.length / idx.dim :=
    Nat.div_pos (Nat.le_of_dvd (Nat.pos_of_ne_zero hq) hdvd) hd
  have hv : ValidateVectors queries idx.D = .ok () := by
    rw [D_of_notNull hnull]
    exact validateVectors_ok hq (by omega) (by omega)
  unfold faissIndex.SearchBatch
  rw [hnull, if_neg Bool.false_ne_true]
  dsimp only
  rw [hv]
  dsimp only
  rw [isTrained_of_notNull hnull htr, if_neg (by simp), if_neg (by omega)]
  refine (searchBatchLoop_ok idx queries k _ _ ?_ hd hnull htr hk htotmul _ 0 ?_).trans ?_
  · have h1 : (0 : Int) < if batchSize ≤ 0 then DefaultSearchBatchSize else batchSize := by
      split_ifs
      · simp [DefaultSearchBatchSize]
      · omega
    split_ifs <;> omega
  · omega
  · simp only [Nat.sub_zero, Nat.zero_add]

lemma search_single (idx : faissIndex) (q : List Int) (k : Int)
    (hnull : idx.isNull = false) (htr : idx.trained = true) (hd : 0 < idx.dim)
    (hq : q.length = idx.dim) (hk : 0 < k) :
    idx.Search q k = .ok ((engineSearchRow idx.data idx.dim q k.toNat).1,
                          (engineSearchRow idx.data idx.dim q k.toNat).2) := by
  rw [search_ok idx q k hnull htr hd (by omega) (by rw [hq]; exact Nat.mod_self _) hk]
  unfold engineSearch
  dsimp only
  rw [hq, Nat.div_self hd, show List.range 1 = [0] from rfl]
  dsimp only [List.map]
  rw [show nthRow q idx.dim 0 = q from by
    unfold nthRow
    rw [Nat.zero_mul, List.drop_zero, ← hq, List.take_length]]
  simp

/-- C3: for every valid query buffer, positive `k`, and arbitrary batch size,
`SearchBatch` succeeds and its per-query result rows — distances and labels —
equal the unbatched `Search` result of the corresponding single query row, in
original query order, across all chunk boundaries. -/
theorem SearchBatch_eq_Search (idx : faissIndex) (queries : List Int) (k batchSize : Int)
    (hnull : idx.isNull = false) (htr : idx.trained = true) (hd : 0 < idx.dim)
    (hq : queries.length ≠ 0) (hdiv : queries.length % idx.dim = 0) (hk : 0 < k) :
    isOkE (idx.SearchBatch queries k batchSize) = true ∧
    ∀ D L, idx.SearchBatch queries k batchSize = .ok (D, L) →
      D.length = queries.length / idx.dim ∧
      L.length = queries.length / idx.dim ∧
      ∀ i, i < queries.length / idx.dim →
        idx.Search (nthRow queries idx.dim i) k = .ok (D.getD i [], L.getD i []) := by
  have hdvd : idx.dim ∣ queries.length := Nat.dvd_of_mod_eq_zero hdiv
  have htotmul : (queries.length / idx.dim) * idx.dim = queries.length :=
    Nat.div_mul_cancel hdvd
  have hmain := searchBatch_ok idx queries k batchSize hnull htr hd hq hdiv hk
  constructor
  · rw [hmain]
    rfl
  · intro D L hDL
    rw [hmain] at hDL
    have hpair := Except.ok.inj hDL
    have hD := congrArg Prod.fst hpair
    have hL := congrArg Prod.snd hpair
    dsimp only at hD hL
    refine ⟨by rw [← hD]; simp, by rw [← hL]; simp, ?_⟩
    intro i hi
    have hrow : (nthRow queries idx.dim i).length = idx.dim := by
      apply length_nthRow
      calc (i + 1) * idx.dim ≤ (queries.length / idx.dim) * idx.dim :=
            Nat.mul_le_mul_right idx.dim (by omega)
        _ = queries.length := htotmul
    rw [search_single idx _ k hnull htr hd hrow hk, ← hD, ← hL,
      getD_map_range _ i hi, getD_map_range _ i hi]

/-- Witness for `SearchBatch_eq_Search`: query 1 of a 3-query batch over
`flatIndex1` with `k = 2` and batch size 2 matches its unbatched search. -/
theorem SearchBatch_eq_Search_witness :
    flatIndex1.Search (nthRow [4, 0, 9] 1 1) 2 = .ok ([0, 25], [0, 1]) := by
  have h := SearchBatch_eq_Search flatIndex1 [4, 0, 9] 2 2 (by decide) (by decide)
    (by decide) (by decide) (by decide) (by decide)
  have h2 := (h.2 [[1, 16], [0, 25], [16, 81]] [[1, 0], [0, 1], [1, 0]] (by rfl)).2.2 1 (by decide)
  exact h2.trans (by rfl)

lemma length_flatten_of_const (g : Nat → List Int) (m k : Nat)
    (hg : ∀ j, j < m → (g j).length = k) :
    (((List.range m).map g).flatten).length = m * k := by
  induction m with
  | zero => simp
  | succ m ih =>
    rw [List.range_succ, List.map_append, List.flatten_append, List.length_append,
      ih (fun j hj => hg j (by omega))]
    simp only [List.map_cons, List.map_nil, List.flatten_cons, List.flatten_nil,
      List.append_nil, List.length_nil]
    rw [hg m (by omega), Nat.succ_mul]

/-- C5 counterexample: on the concrete index `flatIndex1` (1-dimensional,
storing vectors `[0]` and `[5]`, so `ntotal = 2`) and the single query `[4]`,
`ComputeDistancesBatch` returns `[1, 16]`, whose entry `[0*ntotal + 0] = 1` is
the squared distance to stored vector 1 (the nearest), not the squared
distance 16 from query 0 to stored vector 0 — so entry `[i*ntotal + j]` is
not the distance from query `i` to indexed vector `j`. -/
theorem ComputeDistancesBatch_not_storage_order :
    IndexFlat.ComputeDistancesBatch flatIndex1 [4] 10 = .ok [1, 16] ∧
    sqDist [4] (nthRow flatIndex1.data flatIndex1.dim 0) = 16 ∧
    sqDist [4] (nthRow flatIndex1.data flatIndex1.dim 1) = 1 ∧
    (1 : Int) ≠ 16 :=
  ⟨rfl, rfl, rfl, by decide⟩

lemma blocks_spec (F : Nat → List Int) (numQ ntN : Nat)
    (hF : ∀ i, (F i).length = ntN) :
    (distanceBlocks F numQ ntN).length = numQ * ntN ∧
    ∀ i, i < numQ →
      sliceBlock (distanceBlocks F numQ ntN) ntN i =
        if i < ntN then F i else List.replicate ntN 0 := by
  have hbfn : ∀ a, a < numQ →
      (match ((List.range numQ).map F).get? a with
       | some row =>
         if a < row.length then
           row.take ntN ++ List.replicate (ntN - row.length) 0
         else List.replicate ntN 0
       | none => List.replicate ntN 0) = if a < ntN then F a else List.replicate ntN 0 := by
    intro a ha
    rw [show ((List.range numQ).map F).get? a = some (F a) from by
      rw [List.get?_eq_getElem?, List.getElem?_map, List.getElem?_range ha]; rfl]
    dsimp only
    rw [hF a]
    by_cases hc : a < ntN
    · rw [if_pos hc, if_pos hc,
        show (F a).take ntN = F a from by rw [← hF a]; exact List.take_length _,
        Nat.sub_self]
      simp
    · rw [if_neg hc, if_neg hc]
  have hlen : ∀ a, a < numQ →
      ((fun i =>
        match ((List.range numQ).map F).get? i with
        | some row =>
          if i < row.length then
            row.take ntN ++ List.replicate (ntN - row.length) 0
          else List.replicate ntN 0
        | none => List.replicate ntN 0) a).length = ntN := by
    intro a ha
    dsimp only
    rw [hbfn a ha]
    by_cases hc : a < ntN
    · rw [if_pos hc]
      exact hF a
    · rw [if_neg hc]
      exact List.length_replicate _ _
  constructor
  · exact length_flatten_of_const _ numQ ntN hlen
  · intro i hi
    unfold distanceBlocks
    rw [sliceBlock_flatten ntN _ i
      (by
        intro l hl
        obtain ⟨a, ha, rfl⟩ := List.mem_map.mp hl
        exact hlen a (List.mem_range.mp ha))
      (by simpa using hi),
      getD_map_range _ i hi]
    exact hbfn i hi

/-- C5 (amended): `ComputeDistancesBatch` fails with "index is empty" when
`ntotal = 0`; on a non-empty index it succeeds with a dense row-major
`numQueries × ntotal` matrix in which row `i`, for `i < ntotal`, is the
`Search`/`SearchBatch` distance row of query `i` with `k = ntotal` (sorted by
proximity rank, not by storage position), while rows with `i ≥ ntotal` are
left zero-filled because the copy guard `i < len(distances[i])` skips
them. -/
theorem ComputeDistancesBatch_spec (idx : faissIndex) (queries : List Int)
    (batchSize : Int) (hnull : idx.isNull = false) (htr : idx.trained = true)
    (hd : 0 < idx.dim) (hq : queries.length ≠ 0)
    (hdiv : queries.length % idx.dim = 0) (hdata : idx.data.length % idx.dim = 0) :
    (idx.data.length = 0 →
      IndexFlat.ComputeDistancesBatch idx queries batchSize = .error (.msg "index is empty")) ∧
    (idx.data.length ≠ 0 →
      isOkE (IndexFlat.ComputeDistancesBatch idx queries batchSize) = true ∧
      ∀ r, IndexFlat.ComputeDistancesBatch idx queries batchSize = .ok r →
        r.length = (queries.length / idx.dim) * (idx.data.length / idx.dim) ∧
        (∀ i, i < queries.length / idx.dim → i < idx.data.length / idx.dim →
          sliceBlock r (idx.data.length / idx.dim) i =
            (engineSearchRow idx.data idx.dim (nthRow queries idx.dim i)
              (idx.data.length / idx.dim)).1 ∧
          idx.Search (nthRow queries idx.dim i) idx.Ntotal =
            .ok (sliceBlock r (idx.data.length / idx.dim) i,
              (engineSearchRow idx.data idx.dim (nthRow queries idx.dim i)
                (idx.data.length / idx.dim)).2)) ∧
        (∀ i, i < queries.length / idx.dim → idx.data.length / idx.dim ≤ i →
          sliceBlock r (idx.data.length / idx.dim) i =
            List.replicate (idx.data.length / idx.dim) 0)) := by
  have hv : ValidateVectors queries idx.D = .ok () := by
    rw [D_of_notNull hnull]
    exact validateVectors_ok hq (by omega) (by omega)
  have hNt : idx.Ntotal = ((idx.data.length / idx.dim : Nat) : Int) := by
    unfold faissIndex.Ntotal
    rw [hnull]
    rfl
  constructor
  · intro h0
    unfold IndexFlat.ComputeDistancesBatch
    rw [hnull, if_neg Bool.false_ne_true]
    dsimp only
    rw [hv]
    dsimp only
    rw [if_pos (by rw [hNt, h0]; simp)]
  · intro h0
    have hntpos : 0 < idx.data.length / idx.dim :=
      Nat.div_pos (Nat.le_of_dvd (Nat.pos_of_ne_zero h0) (Nat.dvd_of_mod_eq_zero hdata)) hd
    have hkpos : (0 : Int) < idx.Ntotal := by rw [hNt]; omega
    have hqdvd : idx.dim ∣ queries.length := Nat.dvd_of_mod_eq_zero hdiv
    have hqmul : (queries.length / idx.dim) * idx.dim = queries.length :=
      Nat.div_mul_cancel hqdvd
    have hsb := searchBatch_ok idx queries idx.Ntotal
      (if batchSize ≤ 0 then DefaultSearchBatchSize else batchSize)
      hnull htr hd hq hdiv hkpos
    have htoNat : idx.Ntotal.toNat = idx.data.length / idx.dim := by rw [hNt]; omega
    have hcompute : IndexFlat.ComputeDistancesBatch idx queries batchSize =
        .ok (distanceBlocks
          (fun i => (engineSearchRow idx.data idx.dim (nthRow queries idx.dim i)
            idx.Ntotal.toNat).1)
          (queries.length / idx.dim) idx.Ntotal.toNat) := by
      unfold IndexFlat.ComputeDistancesBatch
      rw [hnull, if_neg Bool.false_ne_true]
      dsimp only
      rw [hv]
      dsimp only
      rw [if_neg (by rw [hNt]; omega), hsb]
      rfl
    rw [htoNat] at hcompute
    have hF : ∀ i, ((fun i => (engineSearchRow idx.data idx.dim (nthRow queries idx.dim i)
        (idx.data.length / idx.dim)).1) i).length = idx.data.length / idx.dim :=
      fun i => length_engineSearchRow_fst _ _ _ _
    have hblocks := blocks_spec _ (queries.length / idx.dim) (idx.data.length / idx.dim) hF
    refine ⟨by rw [hcompute]; rfl, ?_⟩
    intro r hr
    rw [hcompute] at hr
    obtain rfl := Except.ok.inj hr
    refine ⟨hblocks.1, ?_, ?_⟩
    · intro i hiq hint
      have hslice := hblocks.2 i hiq
      rw [if_pos hint] at hslice
      have hrow : (nthRow queries idx.dim i).length = idx.dim := by
        apply length_nthRow
        calc (i + 1) * idx.dim ≤ (queries.length / idx.dim) * idx.dim :=
              Nat.mul_le_mul_right idx.dim (by omega)
          _ = queries.length := hqmul
      refine ⟨hslice, ?_⟩
      rw [search_single idx _ idx.Ntotal hnull htr hd hrow hkpos, htoNat, hslice]
    · intro i hiq hint
      have hslice := hblocks.2 i hiq
      rw [if_neg (by omega)] at hslice
      exact hslice

lemma add_error_not_persistence (idx : faissIndex) (x : List Int) (e : GoErr)
    (h : idx.Add x = .error e) : isPersistenceErr e = false := by
  unfold faissIndex.Add at h
  split at h
  · obtain rfl := (Except.error.inj h).symm
    decide
  · split at h
    · obtain rfl := (Except.error.inj h).symm
      simp [isPersistenceErr, wrapError]
    · split at h
      · obtain rfl := (Except.error.inj h).symm
        decide
      · exact absurd h (by simp)

lemma addWithIDs_error_not_persistence (idx : faissIndex) (x xids : List Int) (e : GoErr)
    (h : idx.AddWithIDs x xids = .error e) : isPersistenceErr e = false := by
  unfold faissIndex.AddWithIDs at h
  split at h
  · obtain rfl := (Except.error.inj h).symm
    decide
  · split at h
    · obtain rfl := (Except.error.inj h).symm
      simp [isPersistenceErr, wrapError]
    · split at h
      · obtain rfl := (Except.error.inj h).symm
        decide
      · split at h
        · obtain rfl := (Except.error.inj h).symm
          decide
        · exact absurd h (by simp)

lemma removeIDs_error_not_persistence (idx : faissIndex) (sel : Option SelectorModel)
    (e : GoErr) (h : idx.RemoveIDs sel = .error e) : isPersistenceErr e = false := by
  unfold faissIndex.RemoveIDs at h
  split at h
  · obtain rfl := (Except.error.inj h).symm
    decide
  · split at h
    · obtain rfl := (Except.error.inj h).symm
      decide
    · exact absurd h (by simp)

lemma addWithIDs_ok_inv (idx : faissIndex) (x xids : List Int) (m' : faissIndex)
    (h : idx.AddWithIDs x xids = .ok m') : m' = { idx with data := idx.data ++ x } := by
  unfold faissIndex.AddWithIDs at h
  split at h
  · exact absurd h (by simp)
  · split at h
    · exact absurd h (by simp)
    · split at h
      · exact absurd h (by simp)
      · split at h
        · exact absurd h (by simp)
        · exact (Except.ok.inj h).symm

lemma ntotal_append (idx : faissIndex) (x : List Int) (hnull : idx.isNull = false)
    (hd : 0 < idx.dim) (hmemdiv : idx.data.length % idx.dim = 0)
    (hxdiv : x.length % idx.dim = 0) :
    ({ idx with data := idx.data ++ x } : faissIndex).Ntotal =
      idx.Ntotal + ((x.length / idx.dim : Nat) : Int) := by
  unfold faissIndex.Ntotal
  rw [hnull]
  dsimp only
  rw [List.length_append]
  obtain ⟨p, hp⟩ := Nat.dvd_of_mod_eq_zero hmemdiv
  obtain ⟨q, hq⟩ := Nat.dvd_of_mod_eq_zero hxdiv
  rw [hp, hq, ← Nat.mul_add, Nat.mul_div_cancel_left _ hd, Nat.mul_div_cancel_left _ hd,
    Nat.mul_div_cancel_left _ hd]
  push_cast
  ring

lemma writeIndex_error_persistence (engineFail : Option String) (idxIsNil : Bool)
    (filename : String) (e : GoErr)
    (h : WriteIndex engineFail idxIsNil filename = .error e) :
    isPersistenceErr e = true := by
  unfold WriteIndex at h
  split at h
  · obtain rfl := (Except.error.inj h).symm
    decide
  · split at h
    · obtain rfl := (Except.error.inj h).symm
      decide
    · split at h
      · obtain rfl := (Except.error.inj h).symm
        simp [isPersistenceErr, wrapError]
      · split at h
        · obtain rfl := (Except.error.inj h).symm
          simp [isPersistenceErr, wrapError]
        · exact absurd h (by simp)

lemma writeIndex_resolve (path : String) (hpath1 : path ≠ "")
    (hpath2 : hasInvalidPathChars path = false) :
    WriteIndex none false path = .ok () ∧
    ∀ m, WriteIndex (some m) false path = .error (.wrap "write index" (.msg m)) := by
  have hvfp : ValidateFilePath path false false = .ok () := by
    unfold ValidateFilePath
    rw [if_neg hpath1, if_neg (by rw [hpath2]; simp), if_neg (by simp)]
  constructor
  · unfold WriteIndex
    rw [if_neg (by simp), if_neg hpath1, hvfp]
  · intro m
    unfold WriteIndex
    rw [if_neg (by simp), if_neg hpath1, hvfp]
    rfl

/-- C1: for each mutating call on a `PersistentIndex` (`Add`, `AddWithIDs`,
`RemoveIDs`): if the in-memory mutation on the wrapped handle fails, the call
returns that error unchanged, no write is attempted and the whole world —
in-memory index and file — is untouched, and the error never has the shape of
a `WriteIndex` error; if the in-memory mutation succeeds but the
serialization to `path` fails, the call returns the write error — always
recognizable by the `isPersistenceErr` classifier, which no in-memory
mutation error satisfies — while the in-memory index already reflects the
mutation and the file does not (in particular `Ntotal` counts the vectors
added by a successful `AddWithIDs` whose persistence failed, and `RemoveIDs`
still reports the removed count alongside the disk error). -/
theorem PersistentIndex_mutation_spec (w : PWorld) (x xids : List Int)
    (sel : Option SelectorModel) (wm : String) :
    (∀ e, w.mem.Add x = .error e →
      (∀ wf, PersistentIndex.Add wf w x = (w, some e)) ∧
      isPersistenceErr e = false) ∧
    (∀ m', w.mem.Add x = .ok m' → w.path ≠ "" → hasInvalidPathChars w.path = false →
      PersistentIndex.Add (some wm) w x =
        ({ w with mem := m' }, some (.wrap "write index" (.msg wm))) ∧
      isPersistenceErr (GoErr.wrap "write index" (.msg wm)) = true) ∧
    (∀ e, w.mem.AddWithIDs x xids = .error e →
      (∀ wf, PersistentIndex.AddWithIDs wf w x xids = (w, some e)) ∧
      isPersistenceErr e = false) ∧
    (∀ m', w.mem.AddWithIDs x xids = .ok m' → w.path ≠ "" →
        hasInvalidPathChars w.path = false →
      PersistentIndex.AddWithIDs (some wm) w x xids =
        ({ w with mem := m' }, some (.wrap "write index" (.msg wm))) ∧
      (0 < w.mem.dim → w.mem.isNull = false → w.mem.data.length % w.mem.dim = 0 →
        x.length % w.mem.dim = 0 →
        m'.Ntotal = w.mem.Ntotal + ((x.length / w.mem.dim : Nat) : Int))) ∧
    (∀ e, w.mem.RemoveIDs sel = .error e →
      (∀ wf, PersistentIndex.RemoveIDs wf w sel = (w, 0, some e)) ∧
      isPersistenceErr e = false) ∧
    (∀ n m', w.mem.RemoveIDs sel = .ok (n, m') → w.path ≠ "" →
        hasInvalidPathChars w.path = false →
      PersistentIndex.RemoveIDs (some wm) w sel =
        ({ w with mem := m' }, n, some (.wrap "write index" (.msg wm)))) := by
  refine ⟨?_, ?_, ?_, ?_, ?_, ?_⟩
  · intro e h
    refine ⟨fun wf => ?_, add_error_not_persistence _ _ _ h⟩
    unfold PersistentIndex.Add
    rw [h]
  · intro m' h hp1 hp2
    refine ⟨?_, by simp [isPersistenceErr]⟩
    unfold PersistentIndex.Add
    rw [h]
    dsimp only
    rw [(writeIndex_resolve w.path hp1 hp2).2 wm]
  · intro e h
    refine ⟨fun wf => ?_, addWithIDs_error_not_persistence _ _ _ _ h⟩
    unfold PersistentIndex.AddWithIDs
    rw [h]
  · intro m' h hp1 hp2
    refine ⟨?_, ?_⟩
    · unfold PersistentIndex.AddWithIDs
      rw [h]
      dsimp only
      rw [(writeIndex_resolve w.path hp1 hp2).2 wm]
    · intro hd hnull hmemdiv hxdiv
      rw [addWithIDs_ok_inv _ _ _ _ h]
      exact ntotal_append w.mem x hnull hd hmemdiv hxdiv
  · intro e h
    refine ⟨fun wf => ?_, removeIDs_error_not_persistence _ _ _ h⟩
    unfold PersistentIndex.RemoveIDs
    rw [h]
  · intro n m' h hp1 hp2
    unfold PersistentIndex.RemoveIDs
    rw [h]
    dsimp only
    rw [(writeIndex_resolve w.path hp1 hp2).2 wm]

/-- Witness for `PersistentIndex_mutation_spec` on `world1`: an invalid
in-memory `Add` of an empty buffer fails without touching the world and the
error is not persistence-shaped, while a successful `AddWithIDs` followed by
a simulated disk failure returns the write error with the added vector
already counted by the in-memory `Ntotal`. -/
theorem PersistentIndex_mutation_spec_witness :
    PersistentIndex.Add none world1 [] =
      (world1, some (.wrap "add vectors validation" ErrEmptyVectors)) ∧
    isPersistenceErr (GoErr.wrap "add vectors validation" ErrEmptyVectors) = false ∧
    PersistentIndex.AddWithIDs (some "disk full") world1 [7] [3] =
      ({ world1 with mem := { emptyIndex1 with data := [7] } },
        some (.wrap "write index" (.msg "disk full"))) ∧
    isPersistenceErr (GoErr.wrap "write index" (.msg "disk full")) = true ∧
    ({ emptyIndex1 with data := ([7] : List Int) } : faissIndex).Ntotal =
      world1.mem.Ntotal + 1 := by
  have h1 := (PersistentIndex_mutation_spec world1 [] [] none "disk full").1
    (.wrap "add vectors validation" ErrEmptyVectors) (by rfl)
  have h2 := (PersistentIndex_mutation_spec world1 [7] [3] none "disk full").2.2.2.1
    { emptyIndex1 with data := [7] } (by rfl) (by decide) (by decide)
  have h3 := (PersistentIndex_mutation_spec world1 [7] [3] none "disk full").2.1
    { emptyIndex1 with data := [7] } (by rfl) (by decide) (by decide)
  exact ⟨h1.1 none, h1.2, h2.1, h3.2,
    h2.2 (by decide) (by decide) (by decide) (by decide)⟩

/-- Witness for `ComputeDistancesBatch_spec` on `flatIndex1` (`ntotal = 2`)
with three 1-dimensional queries: row 0 of the returned matrix is the sorted
distance row of query 0, and row 2 (a query index `≥ ntotal`) is left
zero-filled. -/
theorem ComputeDistancesBatch_spec_witness :
    sliceBlock [1, 16, 0, 25, 0, 0] 2 0 =
      (engineSearchRow flatIndex1.data flatIndex1.dim (nthRow [4, 0, 9] 1 0) 2).1 ∧
    sliceBlock [1, 16, 0, 25, 0, 0] 2 2 = List.replicate 2 0 := by
  have h := ComputeDistancesBatch_spec flatIndex1 [4, 0, 9] 10 (by decide) (by decide)
    (by decide) (by decide) (by decide) (by decide)
  have h2 := (h.2 (by decide)).2 [1, 16, 0, 25, 0, 0] (by rfl)
  exact ⟨(h2.2.1 0 (by decide) (by decide)).1, h2.2.2 2 (by decide) (by decide)⟩

end Goss
